import Mathlib

/-!
# Verification of the csvConverter measurement-file converter

Shallow embedding of `converter.py`.  Python strings are modelled as
`List Char`; Python exceptions as the inductive `PyExc` together with
`Except PyExc` results; `datetime.datetime` as a record of calendar
fields with arithmetic performed through the proleptic-Gregorian
epoch-seconds linearisation (exactly the normalisation Python's
`datetime + timedelta` performs on valid datetimes).

File records are modelled one physical line per record (the raw
measurement files contain no newline-embedded quoted fields); a record
is split into fields by `parseCsvLine`, which implements the field
state machine of Python's `csv` module for the default `excel` dialect
(delimiter `,`, quotechar `"`, doublequote, non-strict).
-/

set_option autoImplicit false

namespace CsvConverter

/-- Python exception kinds relevant to `converter.py`. -/
inductive PyExc where
  | indexError
  | valueError
  | attributeError
  | keyError
  | osError
  | stopIteration
  | typeError
deriving DecidableEq, Repr

/-- ASCII whitespace as recognised by `str.strip()` / `str.split()`
(the source data is ASCII; the Unicode space classes never occur). -/
def pyIsSpace (c : Char) : Bool :=
  c = ' ' ∨ c = '\t' ∨ c = '\n' ∨ c = '\r' ∨ c = '\x0b' ∨ c = '\x0c'

/-- Python `s.strip()`: remove leading and trailing whitespace. -/
def pyStrip (s : List Char) : List Char :=
  ((s.dropWhile pyIsSpace).reverse.dropWhile pyIsSpace).reverse

/-- Python `s.split(c)` for a single-character separator: splits at every
occurrence, keeping empty segments; the result is never empty. -/
def pySplitChar (c : Char) : List Char → List (List Char)
  | [] => [[]]
  | x :: xs =>
    if x = c then [] :: pySplitChar c xs
    else
      match pySplitChar c xs with
      | [] => [[x]]
      | h :: t => (x :: h) :: t

/-- Python `s.split(" ", 1)`: split at the first literal space only. -/
def pySplitMax1Space (s : List Char) : List (List Char) :=
  if ' ' ∈ s then [s.takeWhile (fun c => ¬ c = ' '), (s.dropWhile (fun c => ¬ c = ' ')).drop 1]
  else [s]

/-- Python `s.rsplit(" ", 1)`: split at the last literal space only. -/
def pyRsplitMax1Space (s : List Char) : List (List Char) :=
  if ' ' ∈ s then
    [((s.reverse.dropWhile (fun c => ¬ c = ' ')).drop 1).reverse,
     (s.reverse.takeWhile (fun c => ¬ c = ' ')).reverse]
  else [s]

/-- Helper for `pyWhitespaceSplit`: accumulate the current token. -/
def wsSplitGo (cur : List Char) : List Char → List (List Char)
  | [] => if cur = [] then [] else [cur]
  | c :: rest =>
    if pyIsSpace c then
      if cur = [] then wsSplitGo [] rest else cur :: wsSplitGo [] rest
    else wsSplitGo (cur ++ [c]) rest

/-- Python `s.split()` (no argument): split on runs of whitespace,
discarding empty tokens. -/
def pyWhitespaceSplit (s : List Char) : List (List Char) :=
  wsSplitGo [] s

/-- Python `int(s)`: optional surrounding whitespace, optional sign,
at least one decimal digit. -/
def pyIntCore (s : List Char) : Except PyExc Int :=
  match s with
  | '-' :: ds =>
    if ds ≠ [] ∧ ds.all Char.isDigit then
      Except.ok (-(Int.ofNat (ds.foldl (fun a c => a * 10 + (c.toNat - 48)) 0)))
    else Except.error PyExc.valueError
  | '+' :: ds =>
    if ds ≠ [] ∧ ds.all Char.isDigit then
      Except.ok (Int.ofNat (ds.foldl (fun a c => a * 10 + (c.toNat - 48)) 0))
    else Except.error PyExc.valueError
  | ds =>
    if ds ≠ [] ∧ ds.all Char.isDigit then
      Except.ok (Int.ofNat (ds.foldl (fun a c => a * 10 + (c.toNat - 48)) 0))
    else Except.error PyExc.valueError

/-- Python `int(s)` including the whitespace tolerance. -/
def pyInt (s : List Char) : Except PyExc Int :=
  pyIntCore (pyStrip s)

/-- Python `l[i]` semantics for a non-negative index:
out of range raises `IndexError`. -/
def listGetExc {α : Type} (l : List α) (i : Nat) : Except PyExc α :=
  match l.get? i with
  | some a => Except.ok a
  | none => Except.error PyExc.indexError

/-! ## The `csv` module's field splitting (excel dialect, non-strict) -/

/-- States of the `csv` module's per-record field parser. -/
inductive CsvState where
  | startField
  | inField
  | inQuoted
  | quoteInQuoted
deriving DecidableEq, Repr

/-- The `csv` field state machine over one record (one physical line,
line terminator already removed).  `cur` is the field being built,
`acc` the fields already completed. -/
def csvGo (st : CsvState) (cur : List Char) (acc : List (List Char)) :
    List Char → List (List Char)
  | [] => acc ++ [cur]
  | c :: rest =>
    match st with
    | CsvState.startField =>
      if c = '"' then csvGo CsvState.inQuoted cur acc rest
      else if c = ',' then csvGo CsvState.startField [] (acc ++ [cur]) rest
      else csvGo CsvState.inField (cur ++ [c]) acc rest
    | CsvState.inField =>
      if c = ',' then csvGo CsvState.startField [] (acc ++ [cur]) rest
      else csvGo CsvState.inField (cur ++ [c]) acc rest
    | CsvState.inQuoted =>
      if c = '"' then csvGo CsvState.quoteInQuoted cur acc rest
      else csvGo CsvState.inQuoted (cur ++ [c]) acc rest
    | CsvState.quoteInQuoted =>
      if c = '"' then csvGo CsvState.inQuoted (cur ++ ['"']) acc rest
      else if c = ',' then csvGo CsvState.startField [] (acc ++ [cur]) rest
      else csvGo CsvState.inField (cur ++ [c]) acc rest

/-- Fields of one record, as produced by `csv.reader`.  A blank line
yields the empty record, exactly as `csv.reader` does. -/
def parseCsvLine (s : List Char) : List (List Char) :=
  match s with
  | [] => []
  | _ => csvGo CsvState.startField [] [] s

/-! ## `datetime` model

A `datetime.datetime` value: calendar fields only (the script never uses
microseconds or timezones).  Arithmetic goes through the proleptic
Gregorian day count (days since 1970-01-01), the same normalisation
Python performs. -/

structure PyDateTime where
  year : Int
  month : Int
  day : Int
  hour : Int
  minute : Int
  second : Int
deriving DecidableEq, Repr

/-- Days since 1970-01-01 of a proleptic-Gregorian civil date
(Hinnant's `days_from_civil`, with floor division). -/
def daysFromCivil (y0 m d : Int) : Int :=
  let y : Int := if m ≤ 2 then y0 - 1 else y0
  let era : Int := Int.fdiv y 400
  let yoe : Int := y - era * 400
  let mp : Int := if 2 < m then m - 3 else m + 9
  let doy : Int := Int.fdiv (153 * mp + 2) 5 + d - 1
  let doe : Int := yoe * 365 + Int.fdiv yoe 4 - Int.fdiv yoe 100 + doy
  era * 146097 + doe - 719468

/-- Civil date of a day count since 1970-01-01
(Hinnant's `civil_from_days`, with floor division). -/
def civilFromDays (z0 : Int) : Int × Int × Int :=
  let z : Int := z0 + 719468
  let era : Int := Int.fdiv z 146097
  let doe : Int := z - era * 146097
  let yoe : Int :=
    Int.fdiv (doe - Int.fdiv doe 1460 + Int.fdiv doe 36524 - Int.fdiv doe 146096) 365
  let y : Int := yoe + era * 400
  let doy : Int := doe - (365 * yoe + Int.fdiv yoe 4 - Int.fdiv yoe 100)
  let mp : Int := Int.fdiv (5 * doy + 2) 153
  let d : Int := doy - Int.fdiv (153 * mp + 2) 5 + 1
  let m : Int := if mp < 10 then mp + 3 else mp - 9
  (if m ≤ 2 then y + 1 else y, m, d)

/-- Seconds since the 1970-01-01 00:00:00 epoch. -/
def toEpoch (t : PyDateTime) : Int :=
  daysFromCivil t.year t.month t.day * 86400 +
    t.hour * 3600 + t.minute * 60 + t.second

/-- Datetime of an epoch-second count. -/
def ofEpoch (n : Int) : PyDateTime :=
  let days : Int := Int.fdiv n 86400
  let rem : Int := n - days * 86400
  let c := civilFromDays days
  { year := c.1, month := c.2.1, day := c.2.2,
    hour := Int.fdiv rem 3600,
    minute := Int.fdiv (Int.emod rem 3600) 60,
    second := Int.emod rem 60 }

/-- Python `t + datetime.timedelta(seconds = k)` on valid datetimes. -/
def addSecondsDT (t : PyDateTime) (k : Int) : PyDateTime :=
  ofEpoch (toEpoch t + k)

/-- Decimal digits of a non-negative integer, zero-padded to `w` places. -/
def padInt (w : Nat) (n : Int) : List Char :=
  let s := (Nat.toDigits 10 n.toNat)
  List.replicate (w - s.length) '0' ++ s

/-- Python `t.strftime("%Y.%m.%d %H:%M:%S")`.  `%Y` is rendered with four
digits; for the four-digit years of the data this agrees with every
platform's `strftime`. -/
def strftimeYmdHMS (t : PyDateTime) : List Char :=
  padInt 4 t.year ++ '.' :: padInt 2 t.month ++ '.' :: padInt 2 t.day ++
    ' ' :: padInt 2 t.hour ++ ':' :: padInt 2 t.minute ++ ':' :: padInt 2 t.second

/-- Gregorian leap year. -/
def isLeap (y : Int) : Bool :=
  (Int.emod y 4 = 0 ∧ ¬ Int.emod y 100 = 0) ∨ Int.emod y 400 = 0

/-- Length of a month. -/
def daysInMonth (y m : Int) : Int :=
  if m = 2 then (if isLeap y then 29 else 28)
  else if m = 4 ∨ m = 6 ∨ m = 9 ∨ m = 11 then 30
  else 31

/-- Read at most `maxW` leading decimal digits. -/
def readDigits (maxW : Nat) (s : List Char) : List Char × List Char :=
  let ds := (s.take maxW).takeWhile Char.isDigit
  (ds, s.drop ds.length)

/-- Digits to a natural number. -/
def digitsToNat (ds : List Char) : Nat :=
  ds.foldl (fun a c => a * 10 + (c.toNat - 48)) 0

/-- Expect one literal character. -/
def expectChar (c : Char) (s : List Char) : Except PyExc (List Char) :=
  match s with
  | x :: rest => if x = c then Except.ok rest else Except.error PyExc.valueError
  | [] => Except.error PyExc.valueError

/-- Parse a 1-to-`maxW`-digit number field of `strptime`. -/
def readNumField (maxW : Nat) (s : List Char) : Except PyExc (Int × List Char) :=
  let p := readDigits maxW s
  if p.1 = [] then Except.error PyExc.valueError
  else Except.ok (Int.ofNat (digitsToNat p.1), p.2)

/-- Python `datetime.datetime.strptime(s, "%Y.%m.%d %H:%M:%S")`: a four-digit
year, one-or-two-digit remaining fields, the whole string consumed, and
the field ranges of a valid `datetime` enforced. -/
def strptimeYmdHMS (s : List Char) : Except PyExc PyDateTime := do
  let py ← readNumField 4 s
  if ¬ (readDigits 4 s).1.length = 4 then Except.error PyExc.valueError else
  let s ← expectChar '.' py.2
  let pm ← readNumField 2 s
  let s ← expectChar '.' pm.2
  let pd ← readNumField 2 s
  let s ← expectChar ' ' pd.2
  let ph ← readNumField 2 s
  let s ← expectChar ':' ph.2
  let pmi ← readNumField 2 s
  let s ← expectChar ':' pmi.2
  let ps ← readNumField 2 s
  if ¬ ps.2 = [] then Except.error PyExc.valueError else
  let t : PyDateTime :=
    { year := py.1, month := pm.1, day := pd.1,
      hour := ph.1, minute := pmi.1, second := ps.1 }
  if 1 ≤ t.month ∧ t.month ≤ 12 ∧ 1 ≤ t.day ∧ t.day ≤ daysInMonth t.year t.month ∧
      0 ≤ t.hour ∧ t.hour ≤ 23 ∧ 0 ≤ t.minute ∧ t.minute ≤ 59 ∧
      0 ≤ t.second ∧ t.second ≤ 59 ∧ 1 ≤ t.year then
    Except.ok t
  else Except.error PyExc.valueError

/-- A `datetime.time` value (hour, minute, second). -/
structure PyTime where
  hour : Int
  minute : Int
  second : Int
deriving DecidableEq, Repr

/-- Python `datetime.datetime.strptime(s, "%H:%M:%S").time()`. -/
def strptimeHMS (s : List Char) : Except PyExc PyTime := do
  let ph ← readNumField 2 s
  let s ← expectChar ':' ph.2
  let pmi ← readNumField 2 s
  let s ← expectChar ':' pmi.2
  let ps ← readNumField 2 s
  if ¬ ps.2 = [] then Except.error PyExc.valueError else
  if 0 ≤ ph.1 ∧ ph.1 ≤ 23 ∧ 0 ≤ pmi.1 ∧ pmi.1 ≤ 59 ∧ 0 ≤ ps.1 ∧ ps.1 ≤ 59 then
    Except.ok { hour := ph.1, minute := pmi.1, second := ps.1 }
  else Except.error PyExc.valueError

/-- Python `datetime.datetime.combine(d.date(), t)`. -/
def pyCombineDT (d : PyDateTime) (t : PyTime) : PyDateTime :=
  { year := d.year, month := d.month, day := d.day,
    hour := t.hour, minute := t.minute, second := t.second }

/-! ## Header parser (`get_first_line_info`, converter.py lines 28-44) -/

/-- The date/time extraction on the title string (converter.py line 41):
`title.split(" ", 1)[1].rsplit(" ", 1)[0].split()[2:]` unpacked into the
pair `(date, time)` and re-joined `date + " " + time` (line 44). -/
def parseTitleDate (title : List Char) : Except PyExc (List Char) := do
  let rest ← listGetExc (pySplitMax1Space title) 1
  let mid := (pyRsplitMax1Space rest).getD 0 []
  match (pyWhitespaceSplit mid).drop 2 with
  | [d, t] => Except.ok (d ++ ' ' :: t)
  | _ => Except.error PyExc.valueError

/-- Function `get_first_line_info`: `title = next(reader)[0]`, then the date/time
extraction.  The file is a list of physical lines. -/
def get_first_line_info (rawLines : List (List Char)) :
    Except PyExc (List Char × List Char) := do
  let firstRecord ←
    match rawLines.head? with
    | some l => Except.ok (parseCsvLine l)
    | none => Except.error PyExc.stopIteration
  let title ← listGetExc firstRecord 0
  let ds ← parseTitleDate title
  Except.ok (title, ds)

/-- The whitespace tokens of the title's middle region (first
space-token and last space-token removed), as computed by line 41. -/
def titleMidTokens (title : List Char) : List (List Char) :=
  pyWhitespaceSplit ((pyRsplitMax1Space ((pySplitMax1Space title).getD 1 [])).getD 0 [])

/-- Restatement of the header parser from the amended specification
words, to be proved equal to `parseTitleDate`: no space at all in the
title raises `IndexError`; otherwise the parse succeeds exactly when the
middle region has exactly four whitespace tokens, returning its last two
joined by a space, and raises `ValueError` for any other token count. -/
def parseTitleDateSpec (title : List Char) : Except PyExc (List Char) :=
  if ' ' ∈ title then
    match titleMidTokens title with
    | [_, _, d, t] => Except.ok (d ++ ' ' :: t)
    | _ => Except.error PyExc.valueError
  else Except.error PyExc.indexError

/-! ## Row transformer (`create_writable_list`, converter.py lines 46-73) -/

/-- Python `d.split(":")[-1].strip()` (line 60). -/
def stripCell (d : List Char) : List Char :=
  pyStrip ((pySplitChar ':' d).getLastD [])

/-- The fixed headers of the converted file (lines 344-350). -/
def measurementHeaders : List (List Char) :=
  ["CO2(ppm)".toList, "Temperature(C)".toList, "Maximum_CO2(ppm)".toList,
   "Minimum_CO2(ppm)".toList, "Date_Of_Measurement(datetime)".toList]

/-- The inner loop over `enumerate(headers)` (lines 67-71): reading
`data[ih]` for `ih = i, i+1, ..., i+n-1`; an out-of-range index raises
`IndexError`, exactly as `data[ih]` does. -/
def takeIdx {α : Type} (data : List α) : Nat → Nat → Except PyExc (List α)
  | _, 0 => Except.ok []
  | i, n + 1 => do
    let v ← listGetExc data i
    let vs ← takeIdx data (i + 1) n
    Except.ok (v :: vs)

/-- The list `data` for the row at (0-based) index `il` (lines 60-65): the
de-prefixed cells followed by the synthesized timestamp
`(t0 + datetime.timedelta(seconds = il*2)).strftime("%Y.%m.%d %H:%M:%S")`. -/
def rowData (t0 : PyDateTime) (il : Nat) (line : List (List Char)) :
    List (List Char) :=
  line.map stripCell ++ [strftimeYmdHMS (addSecondsDT t0 (2 * il))]

/-- The loop over `enumerate(lines)` (lines 53-71).  Each completed row
dictionary, written by `csv.DictWriter` with the fixed distinct
`headers` as `fieldnames`, is exactly the list of the values
`data[0], ..., data[len(headers)-1]` in header order, which is what each
iteration produces here. -/
def buildRows (hl : Nat) (t0 : PyDateTime) :
    Nat → List (List (List Char)) → Except PyExc (List (List (List Char)))
  | _, [] => Except.ok []
  | il, line :: rest => do
    let row ← takeIdx (rowData t0 il line) 0 hl
    let rows ← buildRows hl t0 (il + 1) rest
    Except.ok (row :: rows)

/-- Function `create_writable_list` (lines 46-73): parse all records, skip the
title record (`list(reader)[1:]`), transform each data row. -/
def create_writable_list (rawLines : List (List Char))
    (headers : List (List Char)) (t0 : PyDateTime) :
    Except PyExc (List (List (List Char))) :=
  buildRows headers.length t0 0 ((rawLines.map parseCsvLine).drop 1)

/-! ## CSV writer (converter.py lines 369-376) -/

/-- Whether `csv.writer` (QUOTE_MINIMAL) must quote a field. -/
def csvNeedsQuote (f : List Char) : Bool :=
  f.any (fun c => c = ',' ∨ c = '"' ∨ c = '\r' ∨ c = '\n')

/-- One output field, quoted when necessary with doubled quotechars. -/
def csvRenderField (f : List Char) : List Char :=
  if csvNeedsQuote f then
    '"' :: (f.flatMap fun c => if c = '"' then ['"', '"'] else [c]) ++ ['"']
  else f

/-- One output record with the default `\r\n` line terminator. -/
def csvRenderRow (fs : List (List Char)) : List Char :=
  (List.intercalate [','] (fs.map csvRenderField)) ++ ['\r', '\n']

/-- The bytes written to `converted_<name>.csv` (lines 370-376):
`writeheader()` then `writerows(csv_list)`. -/
def outputContent (rows : List (List (List Char))) : List Char :=
  csvRenderRow measurementHeaders ++ rows.flatMap csvRenderRow

/-- The output file name `f"converted_{csv_file}"` (line 369). -/
def outputFileName (name : List Char) : List Char :=
  "converted_".toList ++ name

/-- One iteration of the module-level conversion loop (lines 342-376):
header parse, `strptime` of the extracted date, row transformation, and
the bytes written out.  No exception is caught anywhere on this path. -/
def convertOneFile (rawLines : List (List Char)) : Except PyExc (List Char) := do
  let info ← get_first_line_info rawLines
  let t0 ← strptimeYmdHMS info.2
  let rows ← create_writable_list rawLines measurementHeaders t0
  Except.ok (outputContent rows)

/-- The module-level loop over all discovered files: sequential, an
uncaught exception from any file terminates the whole run. -/
def runConversionLoop : List (List (List Char)) → Except PyExc (List (List Char))
  | [] => Except.ok []
  | f :: fs => do
    let o ← convertOneFile f
    let os ← runConversionLoop fs
    Except.ok (o :: os)

/-! ## Config loading (`load_config` / `load_config_csv`, lines 76-121) -/

/-- JSON values, as returned by `json.load`. -/
inductive JVal where
  | null
  | jbool (b : Bool)
  | jnum (n : Int)
  | jstr (s : List Char)
  | jarr (xs : List JVal)
  | jobj (kvs : List (List Char × JVal))

/-- Python truthiness of a JSON-derived value. -/
def jTruthy : JVal → Bool
  | JVal.null => false
  | JVal.jbool b => b
  | JVal.jnum n => ¬ n = 0
  | JVal.jstr s => ¬ s = []
  | JVal.jarr xs => ¬ xs.isEmpty
  | JVal.jobj kvs => ¬ kvs.isEmpty

/-- Dictionary lookup; for duplicate keys `json.load` keeps the last. -/
def jLookup (kvs : List (List Char × JVal)) (k : List Char) : Option JVal :=
  (kvs.reverse.find? (fun p => p.1 = k)).map (fun p => p.2)

/-- Python `config.get(key)`: `AttributeError` when `config` is not a dict. -/
def pyDictGet (v : JVal) (k : List Char) : Except PyExc (Option JVal) :=
  match v with
  | JVal.jobj kvs => Except.ok (jLookup kvs k)
  | _ => Except.error PyExc.attributeError

/-- What opening and `json.load`-ing the JSON config file can amount to:
the file is absent, unreadable (an `OSError` other than file-not-found,
e.g. a permission error), syntactically invalid JSON, or a parsed value. -/
inductive JsonSource where
  | missing
  | unreadable
  | badSyntax
  | parsed (v : JVal)

/-- Function `load_config` (lines 76-92): only `FileNotFoundError` and
`json.JSONDecodeError` are caught (line 88) and turned into the empty
dict; any other `OSError` propagates. -/
def load_config (src : JsonSource) : Except PyExc JVal :=
  match src with
  | JsonSource.missing => Except.ok (JVal.jobj [])
  | JsonSource.badSyntax => Except.ok (JVal.jobj [])
  | JsonSource.unreadable => Except.error PyExc.osError
  | JsonSource.parsed v => Except.ok v

/-- What opening the CSV config file with `csv.DictReader` can amount
to: absent, a `csv.Error` while reading, or a list of row dictionaries
(column name to cell value). -/
inductive CsvSource where
  | missing
  | csvError
  | tableRows (rs : List (List (List Char × List Char)))

/-- Python `row[k]` on a `DictReader` row: `KeyError` when the column is absent. -/
def rowLookupExc (row : List (List Char × List Char)) (k : List Char) :
    Except PyExc (List Char) :=
  match row.find? (fun p => p.1 = k) with
  | some p => Except.ok p.2
  | none => Except.error PyExc.keyError

/-- One `plot_config` dict built from a CSV row (lines 110-114). -/
def csvRowEntry (row : List (List Char × List Char)) : Except PyExc JVal := do
  let f ← rowLookupExc row ("File".toList)
  let s ← rowLookupExc row ("Start".toList)
  let d ← rowLookupExc row ("Duration".toList)
  Except.ok (JVal.jobj
    [("file".toList, JVal.jstr f), ("from".toList, JVal.jstr s),
     ("length".toList, JVal.jstr d)])

/-- The row loop of `load_config_csv` (lines 109-115). -/
def csvEntriesLoop : List (List (List Char × List Char)) → Except PyExc (List JVal)
  | [] => Except.ok []
  | row :: rest => do
    let e ← csvRowEntry row
    let es ← csvEntriesLoop rest
    Except.ok (e :: es)

/-- Function `load_config_csv` (lines 95-121): only `FileNotFoundError` and
`csv.Error` are caught (line 119); a missing column raises `KeyError`,
which propagates. -/
def load_config_csv (src : CsvSource) : Except PyExc JVal :=
  match src with
  | CsvSource.missing => Except.ok (JVal.jobj [])
  | CsvSource.csvError => Except.ok (JVal.jobj [])
  | CsvSource.tableRows rs => do
    let es ← csvEntriesLoop rs
    Except.ok (JVal.jobj [("detailed_plots".toList, JVal.jarr es)])

/-- Outcome of the configuration phase of `plot_detailed_co2_data`. -/
inductive DetailedOutcome where
  | fatal (e : PyExc)
  | skipped
  | runs (entries : List JVal)

/-- Lines 151-160 of `plot_detailed_co2_data`: load the JSON config; if
`config.get("detailed_plots")` is falsy, load the CSV config instead;
read `detailed_plots` with default `[]`; skip (with a warning) when it
is falsy; otherwise iterate over the entries (iterating a truthy
non-list raises `TypeError` at the `for` of line 166). -/
def detailedConfigValue (j : JsonSource) (c : CsvSource) : Except PyExc JVal := do
  let config ← load_config j
  let dp ← pyDictGet config ("detailed_plots".toList)
  let config2 ←
    if (match dp with | some v => jTruthy v | none => false) then
      Except.ok config
    else load_config_csv c
  let dp2 ← pyDictGet config2 ("detailed_plots".toList)
  let dc := dp2.getD (JVal.jarr [])
  Except.ok dc

/-- Collapse of `detailedConfigValue` into the observable outcome. -/
def detailedConfigStep (j : JsonSource) (c : CsvSource) : DetailedOutcome :=
  match detailedConfigValue j c with
  | Except.error e => DetailedOutcome.fatal e
  | Except.ok dc =>
    if jTruthy dc then
      match dc with
      | JVal.jarr xs => DetailedOutcome.runs xs
      | _ => DetailedOutcome.fatal PyExc.typeError
    else DetailedOutcome.skipped

/-! ## Detailed plot loop (lines 166-254) and window filter (195-209) -/

/-- What one iteration of the detailed-plot loop produced. -/
inductive PlotEvent where
  | skippedMissing
  | renderFailedLogged (e : PyExc)
  | rendered
deriving DecidableEq, Repr

/-- The per-entry loop of `plot_detailed_co2_data` (lines 166-254): a
missing converted file is warned about and skipped (line 172-176);
everything after that runs inside `try`, and `except Exception` (line
253) logs the error and lets the loop continue.  `fileExistsFor`
abstracts the `os.path.exists` check and `render` the `try` body. -/
def runDetailedEntries (fileExistsFor : JVal → Bool)
    (render : JVal → Except PyExc Unit) (entries : List JVal) : List PlotEvent :=
  entries.map (fun en =>
    if fileExistsFor en then
      match render en with
      | Except.ok _ => PlotEvent.rendered
      | Except.error e => PlotEvent.renderFailedLogged e
    else PlotEvent.skippedMissing)

/-- Function `parse_time_duration` (lines 124-134), in seconds:
`hours, minutes = map(int, duration_str.split(":"))`. -/
def parse_time_duration (s : List Char) : Except PyExc Int :=
  match (pySplitChar ':' s).map pyInt with
  | [h, m] => do
    let hv ← h
    let mv ← m
    Except.ok (hv * 3600 + mv * 60)
  | _ => Except.error PyExc.valueError

/-- Lines 195-203: the measurement date is taken from the first row
(`iloc[0]`, `IndexError`-like failure on an empty frame), combined with
the configured `HH:MM:SS` start time, and the parsed `hh:mm` duration is
added to obtain the window end. -/
def windowBounds (col : List PyDateTime) (fromS lenS : List Char) :
    Except PyExc (PyDateTime × PyDateTime) := do
  let t0 ←
    match col.head? with
    | some t => Except.ok t
    | none => Except.error PyExc.indexError
  let st ← strptimeHMS fromS
  let dur ← parse_time_duration lenS
  let sdt := pyCombineDT t0 st
  Except.ok (sdt, addSecondsDT sdt dur)

/-- Lines 206-209: `(ts >= start) & (ts <= end)` applied to the parsed
timestamp column (`pandas` compares the represented instants, i.e. the
epoch-second linearisations). -/
def detailedFilter (col : List PyDateTime) (fromS lenS : List Char) :
    Except PyExc (List PyDateTime) := do
  let b ← windowBounds col fromS lenS
  Except.ok (col.filter (fun t =>
    decide (toEpoch b.1 ≤ toEpoch t) && decide (toEpoch t ≤ toEpoch b.2)))

/-! ## Helper lemmas -/

theorem pySplitChar_ne_nil (c : Char) (l : List Char) : ¬ pySplitChar c l = [] := by
  cases l with
  | nil => simp [pySplitChar]
  | cons x xs =>
    simp only [pySplitChar]
    split
    · simp
    · split <;> simp

theorem pySplitChar_of_not_mem (c : Char) (v : List Char) (h : ¬ c ∈ v) :
    pySplitChar c v = [v] := by
  induction v with
  | nil => rfl
  | cons x xs ih =>
    have hx : ¬ x = c := by
      intro e
      exact h (by simp [e])
    have hxs : ¬ c ∈ xs := fun m => h (List.mem_cons_of_mem _ m)
    simp only [pySplitChar, if_neg hx, ih hxs]

theorem two_le_pySplitChar_length (c : Char) (l : List Char) (h : c ∈ l) :
    2 ≤ (pySplitChar c l).length := by
  induction l with
  | nil => cases h
  | cons x xs ih =>
    simp only [pySplitChar]
    by_cases hx : x = c
    · simp only [if_pos hx, List.length_cons]
      have := pySplitChar_ne_nil c xs
      have : 1 ≤ (pySplitChar c xs).length := by
        cases hh : pySplitChar c xs with
        | nil => exact absurd hh this
        | cons a b => simp
      omega
    · have hmem : c ∈ xs := by
        rcases List.mem_cons.mp h with h1 | h2
        · exact absurd h1.symm hx
        · exact h2
      have h2 := ih hmem
      simp only [if_neg hx]
      cases hh : pySplitChar c xs with
      | nil => exact absurd hh (pySplitChar_ne_nil c xs)
      | cons a b =>
        rw [hh] at h2
        simpa using h2

theorem getLastD_default_irrelevant {α : Type} (l : List α) (a b : α) (h : ¬ l = []) :
    l.getLastD a = l.getLastD b := by
  cases l with
  | nil => exact absurd rfl h
  | cons x xs => rw [List.getLastD_cons, List.getLastD_cons]

theorem lastColonSeg_append (p v : List Char) (h : ¬ ':' ∈ v) :
    (pySplitChar ':' (p ++ ':' :: v)).getLastD [] = v := by
  induction p with
  | nil =>
    simp only [List.nil_append, pySplitChar, if_pos rfl,
      pySplitChar_of_not_mem ':' v h]
    simp [List.getLastD_cons]
  | cons x p ih =>
    have hmem : (':' : Char) ∈ p ++ ':' :: v := by simp
    simp only [List.cons_append, pySplitChar]
    by_cases hx : x = ':'
    · simp only [if_pos hx, List.getLastD_cons]
      cases hh : pySplitChar ':' (p ++ ':' :: v) with
      | nil => exact absurd hh (pySplitChar_ne_nil _ _)
      | cons a b =>
        rw [hh] at ih
        simpa [List.getLastD_cons] using ih
    · simp only [if_neg hx]
      cases hh : pySplitChar ':' (p ++ ':' :: v) with
      | nil => exact absurd hh (pySplitChar_ne_nil _ _)
      | cons a b =>
        have hb : ¬ b = [] := by
          have hlen := two_le_pySplitChar_length ':' (p ++ ':' :: v) hmem
          rw [hh] at hlen
          intro e
          rw [e] at hlen
          simp at hlen
        rw [hh] at ih
        simp only [List.getLastD_cons] at ih ⊢
        rw [getLastD_default_irrelevant b (x :: a) a hb]
        exact ih

theorem exceptBind_ok {ε α β : Type} (a : α) (f : α → Except ε β) :
    (Except.ok a >>= f) = f a := rfl

theorem exceptBind_error {ε α β : Type} (e : ε) (f : α → Except ε β) :
    ((Except.error e : Except ε α) >>= f) = Except.error e := rfl

theorem rowData_length (t0 : PyDateTime) (il : Nat) (line : List (List Char)) :
    (rowData t0 il line).length = line.length + 1 := by
  simp [rowData]

theorem takeIdx_ok {α : Type} (data : List α) :
    ∀ (n i : Nat), i + n ≤ data.length →
      takeIdx data i n = Except.ok ((data.drop i).take n) := by
  intro n
  induction n with
  | zero => intro i h; simp [takeIdx]
  | succ n ih =>
    intro i h
    have hi : i < data.length := by omega
    have hget : data.get? i = some (data.get ⟨i, hi⟩) := List.get?_eq_get hi
    simp only [takeIdx, listGetExc, hget, exceptBind_ok]
    rw [ih (i + 1) (by omega)]
    simp only [exceptBind_ok]
    rw [List.drop_eq_getElem_cons hi, List.take_succ_cons]
    simp [List.get_eq_getElem]

theorem takeIdx_err {α : Type} (data : List α) :
    ∀ (n i : Nat), data.length < i + n → 1 ≤ n →
      takeIdx data i n = Except.error PyExc.indexError := by
  intro n
  induction n with
  | zero => intro i h h1; omega
  | succ n ih =>
    intro i h _
    by_cases hi : i < data.length
    · have hget : data.get? i = some (data.get ⟨i, hi⟩) := List.get?_eq_get hi
      simp only [takeIdx, listGetExc, hget, exceptBind_ok]
      rw [ih (i + 1) (by omega) (by omega)]
      rfl
    · have hget : data.get? i = none := by
        rw [List.get?_eq_none]
        omega
      simp only [takeIdx, listGetExc, hget, exceptBind_error]

theorem buildRows_ok (hl : Nat) (t0 : PyDateTime) :
    ∀ (lines : List (List (List Char))) (il : Nat),
      (∀ l ∈ lines, hl ≤ l.length + 1) →
      ∃ rows, buildRows hl t0 il lines = Except.ok rows ∧
        rows.length = lines.length ∧
        ∀ N (hN : N < lines.length),
          rows.get? N = some ((rowData t0 (il + N) (lines.get ⟨N, hN⟩)).take hl) := by
  intro lines
  induction lines with
  | nil =>
    intro il _
    exact ⟨[], rfl, rfl, fun N hN => absurd hN (by simp)⟩
  | cons line rest ih =>
    intro il hval
    have hline : hl ≤ line.length + 1 := hval line (by simp)
    have hrow : takeIdx (rowData t0 il line) 0 hl =
        Except.ok (((rowData t0 il line).drop 0).take hl) :=
      takeIdx_ok _ hl 0 (by rw [rowData_length]; omega)
    obtain ⟨rows, hrows, hlen, hidx⟩ :=
      ih (il + 1) (fun l hm => hval l (List.mem_cons_of_mem _ hm))
    refine ⟨(rowData t0 il line).take hl :: rows, ?_, by simp [hlen], ?_⟩
    · simp only [buildRows, hrow, exceptBind_ok, hrows, List.drop_zero]
    · intro N hN
      cases N with
      | zero => simp
      | succ N =>
        have hN' : N < rest.length := by simpa using hN
        simp only [List.get?_cons_succ, List.get_cons_succ]
        rw [hidx N hN']
        have : il + 1 + N = il + (N + 1) := by omega
        rw [this]

theorem buildRows_err (hl : Nat) (t0 : PyDateTime) :
    ∀ (lines : List (List (List Char))) (il : Nat),
      (∃ l ∈ lines, l.length + 1 < hl) →
      buildRows hl t0 il lines = Except.error PyExc.indexError := by
  intro lines
  induction lines with
  | nil =>
    intro il h
    obtain ⟨l, hm, _⟩ := h
    cases hm
  | cons line rest ih =>
    intro il h
    by_cases hline : line.length + 1 < hl
    · have hrow : takeIdx (rowData t0 il line) 0 hl = Except.error PyExc.indexError :=
        takeIdx_err _ hl 0 (by rw [rowData_length]; omega) (by omega)
      simp only [buildRows, hrow, exceptBind_error]
    · have hrow : takeIdx (rowData t0 il line) 0 hl =
          Except.ok (((rowData t0 il line).drop 0).take hl) :=
        takeIdx_ok _ hl 0 (by rw [rowData_length]; omega)
      obtain ⟨l, hm, hbad⟩ := h
      have hrest : ∃ l ∈ rest, l.length + 1 < hl := by
        rcases List.mem_cons.mp hm with h1 | h2
        · exact absurd (h1 ▸ hbad) hline
        · exact ⟨l, h2, hbad⟩
      simp only [buildRows, hrow, exceptBind_ok, ih il.succ hrest, exceptBind_error]

/-- All records of the file after the title record, as cell lists. -/
theorem create_writable_list_def (raw : List (List Char)) (t0 : PyDateTime) :
    create_writable_list raw measurementHeaders t0 =
      buildRows 5 t0 0 ((raw.map parseCsvLine).drop 1) := rfl

/-! ## Claim theorems -/

/-- C7: for every prefix string and every value string `v` containing no
colon, transforming the cell `prefix ++ ":" ++ v` yields `v` stripped of
surrounding whitespace. -/
theorem c7_deprefixRoundTrip (p v : List Char) (h : ¬ ':' ∈ v) :
    stripCell (p ++ ':' :: v) = pyStrip v := by
  simp only [stripCell, lastColonSeg_append p v h]

theorem c7_witness :
    stripCell ("anything".toList ++ ':' :: " 400 ".toList) = pyStrip (" 400 ".toList) :=
  c7_deprefixRoundTrip ("anything".toList) (" 400 ".toList) (by decide)

/-- C1: for a valid raw file (every data record has exactly the four
expected cells), the transformed row at 0-based index `N` carries, as
its final field, the timestamp `t0 + 2*N` seconds rendered
`YYYY.MM.DD HH:MM:SS`. -/
theorem c1_rowTimestamp (raw : List (List Char)) (t0 : PyDateTime)
    (rows : List (List (List Char)))
    (hval : ∀ l ∈ raw.drop 1, (parseCsvLine l).length = 4)
    (hok : create_writable_list raw measurementHeaders t0 = Except.ok rows) :
    ∀ N, N < rows.length →
      ∃ r, rows.get? N = some r ∧
        r.getLast? = some (strftimeYmdHMS (addSecondsDT t0 (2 * N))) := by
  have hmapdrop : (raw.map parseCsvLine).drop 1 = (raw.drop 1).map parseCsvLine :=
    (List.map_drop parseCsvLine raw 1).symm
  have hval2 : ∀ l ∈ (raw.map parseCsvLine).drop 1, l.length = 4 := by
    intro l hm
    rw [hmapdrop] at hm
    obtain ⟨l', hm', rfl⟩ := List.mem_map.mp hm
    exact hval l' hm'
  obtain ⟨rows', hok', hlen, hidx⟩ :=
    buildRows_ok 5 t0 ((raw.map parseCsvLine).drop 1) 0
      (fun l hm => by rw [hval2 l hm])
  rw [create_writable_list_def, hok'] at hok
  obtain rfl : rows' = rows := by injection hok
  intro N hN
  have hN' : N < ((raw.map parseCsvLine).drop 1).length := by omega
  set line := ((raw.map parseCsvLine).drop 1).get ⟨N, hN'⟩ with hline
  have hlinelen : line.length = 4 := hval2 line (List.get_mem _ N hN')
  have hdata : (rowData t0 (0 + N) line).length = 5 := by
    rw [rowData_length, hlinelen]
  refine ⟨rowData t0 N line, ?_, ?_⟩
  · have := hidx N hN'
    rw [List.take_of_length_le (by rw [hdata])] at this
    rw [this]
    rw [Nat.zero_add]
  · simp only [rowData, List.getLast?_concat]

theorem c1_witness :
    ∃ r, (["400".toList, "22.5".toList, "410".toList, "395".toList,
            "2024.01.15 09:00:00".toList] ::
          ["401".toList, "22.6".toList, "411".toList, "396".toList,
            "2024.01.15 09:00:02".toList] :: []).get? 1 = some r ∧
      r.getLast? = some (strftimeYmdHMS (addSecondsDT ⟨2024, 1, 15, 9, 0, 0⟩ (2 * 1))) :=
  c1_rowTimestamp
    ["Device XYZ Export 2024.01.15 09:00:00 end".toList,
     "a:400,b:22.5,c:410,d:395".toList,
     "a:401,b:22.6,c:411,d:396".toList]
    ⟨2024, 1, 15, 9, 0, 0⟩ _
    (by decide) rfl 1 (by decide)

/-- C3 counterexample: a data row with only three colon-delimited cells
(fewer than the four expected value headers) makes the row transformer
raise an `IndexError` instead of completing without error. -/
theorem c3_counterexample :
    create_writable_list
      ["t A B 2024.01.15 09:00:00 end".toList, "a:1,b:2,c:3".toList]
      measurementHeaders ⟨2024, 1, 15, 9, 0, 0⟩ =
    Except.error PyExc.indexError := rfl

/-- C3 amended: the transformer completes exactly when every data row
has at least four cells; rows with more than four cells silently
misalign (each produced row is the first five entries of the
de-prefixed cells followed by the synthesized timestamp, so extra cells
shift columns and push the timestamp out), while rows with fewer cells
raise an uncaught `IndexError`. -/
theorem c3_misalignment (raw : List (List Char)) (t0 : PyDateTime) :
    ((∃ rows, create_writable_list raw measurementHeaders t0 = Except.ok rows) ↔
      ∀ l ∈ (raw.map parseCsvLine).drop 1, 4 ≤ l.length)
    ∧ ∀ rows, create_writable_list raw measurementHeaders t0 = Except.ok rows →
        ∀ N (hN : N < ((raw.map parseCsvLine).drop 1).length),
          rows.get? N = some
            ((rowData t0 N (((raw.map parseCsvLine).drop 1).get ⟨N, hN⟩)).take 5) := by
  have hiff : (∃ rows, create_writable_list raw measurementHeaders t0 = Except.ok rows) ↔
      ∀ l ∈ (raw.map parseCsvLine).drop 1, 4 ≤ l.length := by
    constructor
    · rintro ⟨rows, hok⟩
      by_contra hnot
      push_neg at hnot
      obtain ⟨l, hm, hlt⟩ := hnot
      have herr := buildRows_err 5 t0 ((raw.map parseCsvLine).drop 1) 0
        ⟨l, hm, by omega⟩
      rw [create_writable_list_def, herr] at hok
      cases hok
    · intro hval
      obtain ⟨rows, hok, _, _⟩ :=
        buildRows_ok 5 t0 ((raw.map parseCsvLine).drop 1) 0
          (fun l hm => by have := hval l hm; omega)
      exact ⟨rows, by rw [create_writable_list_def, hok]⟩
  refine ⟨hiff, ?_⟩
  intro rows hok N hN
  obtain ⟨rows', hok', hlen, hidx⟩ :=
    buildRows_ok 5 t0 ((raw.map parseCsvLine).drop 1) 0
      (fun l hm => by have := hiff.mp ⟨rows, hok⟩ l hm; omega)
  rw [create_writable_list_def, hok'] at hok
  obtain rfl : rows' = rows := by injection hok
  have := hidx N hN
  rw [Nat.zero_add] at this
  exact this

theorem c3_witness :
    ∃ rows, create_writable_list
      ["t".toList, "a:1,b:2,c:3,d:4,e:5".toList]
      measurementHeaders ⟨2024, 1, 15, 9, 0, 0⟩ = Except.ok rows :=
  (c3_misalignment ["t".toList, "a:1,b:2,c:3,d:4,e:5".toList]
    ⟨2024, 1, 15, 9, 0, 0⟩).1.mpr (by decide)

/-- C2 counterexample: for the title
`"Device A XYZ Export 2024.01.15 09:00:00 end"` the region after the
first whitespace token has six (hence at least four) space-separated
segments, so by the claim the parser should return the middle region's
last two tokens; instead the parse raises a `ValueError` (the tuple
unpacking of `split()[2:]` needs exactly two tokens). -/
theorem c2_counterexample :
    4 ≤ (pyWhitespaceSplit
          ((pySplitMax1Space ("Device A XYZ Export 2024.01.15 09:00:00 end".toList)).getD 1 [])).length
    ∧ parseTitleDate ("Device A XYZ Export 2024.01.15 09:00:00 end".toList) =
        Except.error PyExc.valueError :=
  ⟨by decide, rfl⟩

/-- C2 amended: the header parser is extensionally the function that
fails with `IndexError` when the title contains no space, succeeds with
the middle region's tokens at positions 2 and 3 (its last two) joined
by a space when the middle region — first space-token and last
space-token removed — has exactly four whitespace tokens, and fails
with `ValueError` for every other token count, too many as well as too
few. -/
theorem c2_titleParse (title : List Char) :
    parseTitleDate title = parseTitleDateSpec title := by
  by_cases hsp : ' ' ∈ title
  · have hsplit : pySplitMax1Space title =
        [title.takeWhile (fun c => ¬ c = ' '),
         (title.dropWhile (fun c => ¬ c = ' ')).drop 1] := by
      simp [pySplitMax1Space, hsp]
    have hget : listGetExc (pySplitMax1Space title) 1 =
        Except.ok ((title.dropWhile (fun c => ¬ c = ' ')).drop 1) := by
      rw [hsplit]; rfl
    have hgetD : (pySplitMax1Space title).getD 1 [] =
        (title.dropWhile (fun c => ¬ c = ' ')).drop 1 := by
      rw [hsplit]; rfl
    simp only [parseTitleDate, parseTitleDateSpec, hget, exceptBind_ok, if_pos hsp,
      titleMidTokens, hgetD]
    set toks := pyWhitespaceSplit
      ((pyRsplitMax1Space ((title.dropWhile (fun c => ¬ c = ' ')).drop 1)).getD 0 [])
      with htoks
    rcases toks with _ | ⟨a, _ | ⟨b, _ | ⟨x, _ | ⟨y, _ | ⟨z, rest⟩⟩⟩⟩⟩ <;> rfl
  · have hsplit : pySplitMax1Space title = [title] := by
      simp [pySplitMax1Space, hsp]
    have hget : listGetExc (pySplitMax1Space title) 1 =
        Except.error PyExc.indexError := by
      rw [hsplit]; rfl
    simp only [parseTitleDate, parseTitleDateSpec, hget, exceptBind_error, if_neg hsp]

theorem csvGo_acc_append :
    ∀ (rest : List Char) (st : CsvState) (cur : List Char) (acc : List (List Char)),
      ∃ out, csvGo st cur acc rest = acc ++ out ∧ ¬ out = [] := by
  intro rest
  induction rest with
  | nil => intro st cur acc; exact ⟨[cur], rfl, by simp⟩
  | cons c rest ih =>
    intro st cur acc
    cases st <;> simp only [csvGo] <;> split
    · exact ih CsvState.inQuoted cur acc
    · split
      · obtain ⟨out, ho, hne⟩ := ih CsvState.startField [] (acc ++ [cur])
        exact ⟨cur :: out, by rw [ho, List.append_assoc]; rfl, by simp⟩
      · exact ih CsvState.inField (cur ++ [c]) acc
    · obtain ⟨out, ho, hne⟩ := ih CsvState.startField [] (acc ++ [cur])
      exact ⟨cur :: out, by rw [ho, List.append_assoc]; rfl, by simp⟩
    · exact ih CsvState.inField (cur ++ [c]) acc
    · exact ih CsvState.quoteInQuoted cur acc
    · exact ih CsvState.inQuoted (cur ++ [c]) acc
    · exact ih CsvState.inQuoted (cur ++ ['"']) acc
    · split
      · obtain ⟨out, ho, hne⟩ := ih CsvState.startField [] (acc ++ [cur])
        exact ⟨cur :: out, by rw [ho, List.append_assoc]; rfl, by simp⟩
      · exact ih CsvState.inField (cur ++ [c]) acc

theorem csvGo_inField_first :
    ∀ (rest cur : List Char) (acc : List (List Char)),
      ∃ tl, csvGo CsvState.inField cur acc rest =
        acc ++ (cur ++ rest.takeWhile (fun c => ¬ c = ',')) :: tl := by
  intro rest
  induction rest with
  | nil => intro cur acc; exact ⟨[], by simp [csvGo]⟩
  | cons c rest ih =>
    intro cur acc
    simp only [csvGo]
    by_cases hc : c = ','
    · obtain ⟨out, ho, _⟩ := csvGo_acc_append rest CsvState.startField [] (acc ++ [cur])
      refine ⟨out, ?_⟩
      rw [if_pos hc, ho, List.append_assoc]
      subst hc
      simp [List.takeWhile]
    · obtain ⟨tl, ho⟩ := ih (cur ++ [c]) acc
      refine ⟨tl, ?_⟩
      rw [if_neg hc, ho]
      have : (c :: rest).takeWhile (fun c => ¬ c = ',') =
          c :: rest.takeWhile (fun c => ¬ c = ',') := by
        simp [List.takeWhile, hc]
      rw [this, List.append_assoc]
      rfl

/-- C10 counterexample: a first line whose first field is CSV-quoted,
`"Dev, A B 2024.01.15 09:00:00 end",junk`.  The title the header parser
uses is not the text before the first comma (`"Dev`), and the parse
succeeds with date and time tokens that stand after the first comma of
the line — so "everything from the first comma onward is discarded" is
false for quoted fields. -/
theorem c10_counterexample :
    ¬ (parseCsvLine ("\"Dev, A B 2024.01.15 09:00:00 end\",junk".toList)).getD 0 [] =
        "\"Dev, A B 2024.01.15 09:00:00 end\",junk".toList.takeWhile (fun c => ¬ c = ',')
    ∧ get_first_line_info ["\"Dev, A B 2024.01.15 09:00:00 end\",junk".toList] =
        Except.ok ("Dev, A B 2024.01.15 09:00:00 end".toList,
          "2024.01.15 09:00:00".toList) :=
  ⟨by decide, rfl⟩

/-- C10 amended: the header parser uses the first CSV field of the
first line as the title; for every first line that does not begin with
the CSV quote character, that field is exactly the text before the
first comma, so everything from the first comma onward is discarded.
(A first line beginning with `"` has a quoted first field that may
itself contain commas.) -/
theorem c10_firstField (line : List Char) (h : ¬ line.head? = some '"') :
    (parseCsvLine line).getD 0 [] = line.takeWhile (fun c => ¬ c = ',') := by
  cases line with
  | nil => rfl
  | cons c rest =>
    have hc : ¬ c = '"' := by
      intro e
      exact h (by rw [e]; rfl)
    show (csvGo CsvState.startField [] [] (c :: rest)).getD 0 [] = _
    simp only [csvGo, if_neg hc]
    by_cases hcomma : c = ','
    · obtain ⟨out, ho, hne⟩ := csvGo_acc_append rest CsvState.startField [] ([] ++ [[]])
      rw [if_pos hcomma, ho]
      subst hcomma
      simp [List.takeWhile]
    · obtain ⟨tl, ho⟩ := csvGo_inField_first rest ([] ++ [c]) []
      rw [if_neg hcomma, ho]
      have : (c :: rest).takeWhile (fun c => ¬ c = ',') =
          c :: rest.takeWhile (fun c => ¬ c = ',') := by
        simp [List.takeWhile, hcomma]
      rw [this]
      rfl

theorem c10_witness :
    (parseCsvLine ("Device XYZ Export 2024.01.15 09:00:00 end,extra,cols".toList)).getD 0 [] =
      "Device XYZ Export 2024.01.15 09:00:00 end,extra,cols".toList.takeWhile
        (fun c => ¬ c = ',') :=
  c10_firstField ("Device XYZ Export 2024.01.15 09:00:00 end,extra,cols".toList)
    (by decide)

/-- C4: error handling is asymmetric.  (1) The detailed-plot loop
always processes every config entry: its outcome list has one event per
entry for every behaviour of the rendering body; (2) in particular an
entry whose rendering raises is logged and the loop continues with the
remaining entries unchanged; (3) the conversion loop catches nothing:
if one file's conversion raises, the whole run terminates with that
exception even when every earlier file converted fine. -/
theorem c4_errorAsymmetry :
    (∀ (fe : JVal → Bool) (render : JVal → Except PyExc Unit) (entries : List JVal),
      (runDetailedEntries fe render entries).length = entries.length)
    ∧ (∀ (fe : JVal → Bool) (render : JVal → Except PyExc Unit) (en : JVal)
        (entries : List JVal) (e : PyExc),
        fe en = true → render en = Except.error e →
        runDetailedEntries fe render (en :: entries) =
          PlotEvent.renderFailedLogged e :: runDetailedEntries fe render entries)
    ∧ (∀ (pre : List (List (List Char))) (f : List (List Char))
        (post : List (List (List Char))) (e : PyExc),
        (∀ g ∈ pre, ∃ v, convertOneFile g = Except.ok v) →
        convertOneFile f = Except.error e →
        runConversionLoop (pre ++ f :: post) = Except.error e) := by
  refine ⟨?_, ?_, ?_⟩
  · intro fe render entries
    simp [runDetailedEntries]
  · intro fe render en entries e hfe hr
    simp only [runDetailedEntries, List.map_cons, hfe, if_pos, hr]
  · intro pre
    induction pre with
    | nil =>
      intro f post e _ hf
      simp only [List.nil_append, runConversionLoop, hf, exceptBind_error]
    | cons g pre ih =>
      intro f post e hpre hf
      obtain ⟨v, hv⟩ := hpre g (by simp)
      have hrest := ih f post e (fun x hx => hpre x (List.mem_cons_of_mem _ hx)) hf
      simp only [List.cons_append, runConversionLoop, hv, exceptBind_ok]
      have hrest2 : runConversionLoop (pre.append (f :: post)) = Except.error e := hrest
      rw [hrest2]
      rfl

theorem c4_witness :
    runConversionLoop
      [["Device XYZ Export 2024.01.15 09:00:00 end".toList,
        "a:400,b:22.5,c:410,d:395".toList],
       ["nospace".toList]] = Except.error PyExc.indexError :=
  c4_errorAsymmetry.2.2
    [["Device XYZ Export 2024.01.15 09:00:00 end".toList,
      "a:400,b:22.5,c:410,d:395".toList]]
    ["nospace".toList] [] PyExc.indexError
    (by
      intro g hg
      rw [List.mem_singleton] at hg
      subst hg
      exact ⟨_, rfl⟩)
    rfl

/-- C5 counterexample: with an unreadable JSON config (an `OSError`
that is not `FileNotFoundError`, e.g. a permission error) and a
perfectly valid CSV config available, the loader does not fall back: it
propagates the exception fatally, because line 88 catches only
`FileNotFoundError` and `json.JSONDecodeError`. -/
theorem c5_counterexample :
    detailedConfigStep JsonSource.unreadable
      (CsvSource.tableRows
        [[("File".toList, "m1.csv".toList), ("Start".toList, "09:05:00".toList),
          ("Duration".toList, "00:10".toList)]]) =
    DetailedOutcome.fatal PyExc.osError := rfl

theorem detailedConfigValue_eq (j : JsonSource) (c : CsvSource) (cfg : JVal)
    (h : load_config j = Except.ok cfg) :
    detailedConfigValue j c = (do
      let dp ← pyDictGet cfg ("detailed_plots".toList)
      let config2 ←
        if (match dp with | some v => jTruthy v | none => false) then
          Except.ok cfg
        else load_config_csv c
      let dp2 ← pyDictGet config2 ("detailed_plots".toList)
      Except.ok (dp2.getD (JVal.jarr []))) := by
  simp only [detailedConfigValue, h, exceptBind_ok]

/-- C5 amended: (1) when the JSON config is missing, malformed, or
yields no truthy `detailed_plots` value, and the CSV config loads into
a non-empty entry list, those CSV entries are used; (2) when the JSON
config loads to the empty dict (missing or malformed) and the CSV
config also loads to the empty dict (missing or a `csv.Error`),
detailed plotting is skipped with a warning, non-fatally; (3) but an
unreadable JSON config file propagates an uncaught `OSError`
regardless of the CSV config. -/
theorem c5_configFallback :
    (∀ (j : JsonSource) (rs : List (List (List Char × List Char)))
        (cfg : JVal) (dp : Option JVal) (es : List JVal),
      load_config j = Except.ok cfg →
      pyDictGet cfg ("detailed_plots".toList) = Except.ok dp →
      (match dp with | some v => jTruthy v | none => false) = false →
      csvEntriesLoop rs = Except.ok es → ¬ es = [] →
      detailedConfigStep j (CsvSource.tableRows rs) = DetailedOutcome.runs es)
    ∧ (∀ (j : JsonSource) (c : CsvSource),
        load_config j = Except.ok (JVal.jobj []) →
        load_config_csv c = Except.ok (JVal.jobj []) →
        detailedConfigStep j c = DetailedOutcome.skipped)
    ∧ (∀ c : CsvSource,
        detailedConfigStep JsonSource.unreadable c =
          DetailedOutcome.fatal PyExc.osError) := by
  refine ⟨?_, ?_, fun c => rfl⟩
  · intro j rs cfg dp es hcfg hdp hfalsy hes hne
    have hval : detailedConfigValue j (CsvSource.tableRows rs) =
        Except.ok (JVal.jarr es) := by
      rw [detailedConfigValue_eq j (CsvSource.tableRows rs) cfg hcfg, hdp]
      simp only [exceptBind_ok, hfalsy]
      simp only [Bool.false_eq_true, if_false, load_config_csv, hes, exceptBind_ok]
      rfl
    unfold detailedConfigStep
    rw [hval]
    cases es with
    | nil => exact absurd rfl hne
    | cons a es => simp [jTruthy]
  · intro j c hj hc
    have hval : detailedConfigValue j c = Except.ok (JVal.jarr []) := by
      rw [detailedConfigValue_eq j c (JVal.jobj []) hj, hc]
      rfl
    unfold detailedConfigStep
    rw [hval]
    rfl

theorem c5_witness :
    detailedConfigStep JsonSource.missing
      (CsvSource.tableRows
        [[("File".toList, "m1.csv".toList), ("Start".toList, "09:05:00".toList),
          ("Duration".toList, "00:10".toList)]]) =
    DetailedOutcome.runs
      [JVal.jobj [("file".toList, JVal.jstr "m1.csv".toList),
        ("from".toList, JVal.jstr "09:05:00".toList),
        ("length".toList, JVal.jstr "00:10".toList)]] :=
  c5_configFallback.1 JsonSource.missing
    [[("File".toList, "m1.csv".toList), ("Start".toList, "09:05:00".toList),
      ("Duration".toList, "00:10".toList)]]
    (JVal.jobj []) none
    [JVal.jobj [("file".toList, JVal.jstr "m1.csv".toList),
      ("from".toList, JVal.jstr "09:05:00".toList),
      ("length".toList, JVal.jstr "00:10".toList)]]
    rfl rfl rfl rfl (by simp)

/-- C6: with window bounds `s` (the first row's date combined with the
configured start time) and `e = s + duration`, and a non-degenerate
window `s ≤ e`, the filter keeps every row whose timestamp sits exactly
at either bound and rejects every row one second outside either
bound. -/
theorem c6_windowInclusive (col : List PyDateTime) (fromS lenS : List Char)
    (s e : PyDateTime) (out : List PyDateTime) (t : PyDateTime)
    (hW : windowBounds col fromS lenS = Except.ok (s, e))
    (hF : detailedFilter col fromS lenS = Except.ok out)
    (hse : toEpoch s ≤ toEpoch e) (ht : t ∈ col) :
    ((toEpoch t = toEpoch s ∨ toEpoch t = toEpoch e) → t ∈ out)
    ∧ ((toEpoch t = toEpoch s - 1 ∨ toEpoch t = toEpoch e + 1) → ¬ t ∈ out) := by
  have hfil : detailedFilter col fromS lenS =
      Except.ok (col.filter (fun u =>
        decide (toEpoch s ≤ toEpoch u) && decide (toEpoch u ≤ toEpoch e))) := by
    simp only [detailedFilter, hW, exceptBind_ok]
  rw [hfil] at hF
  obtain rfl : col.filter (fun u =>
      decide (toEpoch s ≤ toEpoch u) && decide (toEpoch u ≤ toEpoch e)) = out := by
    injection hF
  constructor
  · intro hc
    rw [List.mem_filter]
    refine ⟨ht, ?_⟩
    simp only [Bool.and_eq_true, decide_eq_true_eq]
    omega
  · intro hc hmem
    rw [List.mem_filter] at hmem
    obtain ⟨-, hp⟩ := hmem
    simp only [Bool.and_eq_true, decide_eq_true_eq] at hp
    omega

theorem c6_witness :
    ¬ (⟨2024, 1, 15, 9, 15, 1⟩ : PyDateTime) ∈
      [(⟨2024, 1, 15, 9, 5, 0⟩ : PyDateTime), ⟨2024, 1, 15, 9, 15, 0⟩] :=
  (c6_windowInclusive
    [⟨2024, 1, 15, 9, 5, 0⟩, ⟨2024, 1, 15, 9, 15, 0⟩, ⟨2024, 1, 15, 9, 15, 1⟩]
    ("09:05:00".toList) ("00:10".toList)
    ⟨2024, 1, 15, 9, 5, 0⟩ ⟨2024, 1, 15, 9, 15, 0⟩
    [⟨2024, 1, 15, 9, 5, 0⟩, ⟨2024, 1, 15, 9, 15, 0⟩]
    ⟨2024, 1, 15, 9, 15, 1⟩
    rfl rfl (by decide) (by decide)).2 (Or.inr (by decide))

/-- C8: conversion is a pure function of the extracted start timestamp
and the data records: running it twice on unchanged input is
byte-identical (determinism), and the parsed title is never echoed into
the output — two files agreeing on the extracted date string and on
everything after the first line convert to identical bytes however
their titles differ otherwise. -/
theorem c8_conversionPure (raw1 raw2 : List (List Char)) (t1 t2 d1 d2 : List Char)
    (h1 : get_first_line_info raw1 = Except.ok (t1, d1))
    (h2 : get_first_line_info raw2 = Except.ok (t2, d2))
    (hd : d1 = d2) (hdrop : raw1.drop 1 = raw2.drop 1) :
    convertOneFile raw1 = convertOneFile raw2
    ∧ convertOneFile raw1 = convertOneFile raw1 := by
  refine ⟨?_, rfl⟩
  subst hd
  have hcreate : ∀ t0, create_writable_list raw1 measurementHeaders t0 =
      create_writable_list raw2 measurementHeaders t0 := by
    intro t0
    rw [create_writable_list_def, create_writable_list_def,
      ← List.map_drop, ← List.map_drop, hdrop]
  simp only [convertOneFile, h1, h2, exceptBind_ok, hcreate]

theorem c8_witness :
    convertOneFile
      ["Device XYZ Export 2024.01.15 09:00:00 end".toList,
       "a:400,b:22.5,c:410,d:395".toList] =
    convertOneFile
      ["Machine AAA Dump 2024.01.15 09:00:00 note".toList,
       "a:400,b:22.5,c:410,d:395".toList] :=
  (c8_conversionPure
    ["Device XYZ Export 2024.01.15 09:00:00 end".toList,
     "a:400,b:22.5,c:410,d:395".toList]
    ["Machine AAA Dump 2024.01.15 09:00:00 note".toList,
     "a:400,b:22.5,c:410,d:395".toList]
    ("Device XYZ Export 2024.01.15 09:00:00 end".toList)
    ("Machine AAA Dump 2024.01.15 09:00:00 note".toList)
    ("2024.01.15 09:00:00".toList) ("2024.01.15 09:00:00".toList)
    rfl rfl rfl rfl).1

/-- C9: a raw file consisting of the title line alone transforms to the
empty row sequence, and the written output is exactly the fixed header
record and nothing else. -/
theorem c9_titleOnly (l t d : List Char) (t0 : PyDateTime)
    (h1 : get_first_line_info [l] = Except.ok (t, d))
    (h2 : strptimeYmdHMS d = Except.ok t0) :
    create_writable_list [l] measurementHeaders t0 = Except.ok []
    ∧ convertOneFile [l] = Except.ok (csvRenderRow measurementHeaders) := by
  have hcreate : create_writable_list [l] measurementHeaders t0 = Except.ok [] := rfl
  refine ⟨hcreate, ?_⟩
  simp only [convertOneFile, h1, exceptBind_ok, h2, hcreate]
  simp [outputContent]

theorem c9_witness :
    convertOneFile ["Device XYZ Export 2024.01.15 09:00:00 end".toList] =
      Except.ok (csvRenderRow measurementHeaders) :=
  (c9_titleOnly ("Device XYZ Export 2024.01.15 09:00:00 end".toList)
    ("Device XYZ Export 2024.01.15 09:00:00 end".toList)
    ("2024.01.15 09:00:00".toList) ⟨2024, 1, 15, 9, 0, 0⟩ rfl rfl).2

end CsvConverter
